import Mathlib

/-!
Verification of the Gauss-Newton solver and the gradient/Hessian/Jacobian
helper functions of the cofi-examples repository
(`pygimli_ert_gauss_newton.py`, `pygimli_ert_scipy_minimize.py`,
`pygimli_dcip_lib.py`).

Modelling conventions.
* Real numbers (numpy float arrays) are modelled by `ℚ`; a vector of length
  `n` is `Fin n → ℚ` and a matrix is `Matrix (Fin m) (Fin n) ℚ`.
* `np.exp` and `np.log` are transcendental, so they are carried as abstract
  scalar functions `rexp rlog : ℚ → ℚ` applied pointwise; the claims about
  the Jacobian rescaling only concern how the code arranges these factors.
* The external pygimli forward operator (its `response`, `createJacobian`
  and `jacobian` methods) is an opaque collaborator, modelled by a structure
  holding the response map and the raw Jacobian as a function of the vector
  passed to `createJacobian`.
* `np.linalg.solve` raises `LinAlgError("Singular matrix")` on a singular
  coefficient matrix and otherwise returns the unique solution of the
  square system; in exact arithmetic this is: fail iff the determinant is
  zero, otherwise return `det⁻¹ • adjugate A *ᵥ b` (Cramer).
* Python exceptions are modelled by `Except String`; `print` output is
  modelled by an explicit trace list returned next to the result.
-/

open scoped Matrix

/-- Vectors of length `n` (numpy 1-d arrays). -/
abbrev Vec (n : ℕ) := Fin n → ℚ

/-- Model of `np.linalg.solve(A, b)` for a square system: raises
`LinAlgError("Singular matrix")` when `A` is singular, otherwise returns the
unique solution `A⁻¹ b`, here written with the adjugate so that the
definition is executable. -/
def npLinalgSolve {n : ℕ} (A : Matrix (Fin n) (Fin n) ℚ) (b : Vec n) :
    Except String (Vec n) :=
  if A.det = 0 then .error "Singular matrix"
  else .ok (A.det⁻¹ • (A.adjugate *ᵥ b))

/-- The external `ert.ERTModelling` forward operator, as used by the scripts:
`response m` models `forward_operator.response(m)` and `jacobianAt v` models
the matrix read back by `np.array(forward_operator.jacobian())` after
`forward_operator.createJacobian(v)`. -/
structure ERTForwardOp (M N : ℕ) where
  response : Vec M → Vec N
  jacobianAt : Vec M → Matrix (Fin N) (Fin M) ℚ

namespace ErtGaussNewton

/-! Functions of `pygimli_ert_gauss_newton.py`.  `rexp`/`rlog` stand for
`np.exp`/`np.log` applied to scalars. -/

variable (rexp rlog : ℚ → ℚ)

/-- `get_response(model, forward_operator)`:
`np.log(np.array(forward_operator.response(model)))`. -/
def get_response {M N : ℕ} (fop : ERTForwardOp M N) (model : Vec M) : Vec N :=
  fun i => rlog (fop.response model i)

/-- `get_jac_residual(model, log_data, forward_operator)`: recomputes the
log response, forms `residual = log_data - response`, and rescales the raw
Jacobian by `J / np.exp(response[:, np.newaxis]) * np.exp(np.log(model))[np.newaxis, :]`. -/
def get_jac_residual {M N : ℕ} (fop : ERTForwardOp M N) (log_data : Vec N)
    (model : Vec M) : Matrix (Fin N) (Fin M) ℚ × Vec N :=
  let response := fun i => rlog (fop.response model i)
  let residual := fun i => log_data i - response i
  let J := fop.jacobianAt model
  let jac := Matrix.of fun i j => J i j / rexp (response i) * rexp (rlog (model j))
  (jac, residual)

/-- `get_jacobian(model, forward_operator)` of the Gauss-Newton script:
same rescaled Jacobian as `get_jac_residual`. -/
def get_jacobian {M N : ℕ} (fop : ERTForwardOp M N) (model : Vec M) :
    Matrix (Fin N) (Fin M) ℚ :=
  let response := get_response rlog fop model
  let J := fop.jacobianAt model
  Matrix.of fun i j => J i j / rexp (response i) * rexp (rlog (model j))

/-- The pure combination step of `get_gradient` in the Gauss-Newton script,
applied to the `jac, residual` pair produced by `get_jac_residual`:
`- 2 * residual @ jac + 2 * lamda * Wm.T @ Wm @ model`
(numpy `*`/`@` are left-associative). -/
def grad_combine {M N K : ℕ} (jac : Matrix (Fin N) (Fin M) ℚ) (residual : Vec N)
    (Wm : Matrix (Fin K) (Fin M) ℚ) (lamda : ℚ) (model : Vec M) : Vec M :=
  let data_misfit_grad := fun j => -2 * (residual ᵥ* jac) j
  let regularisation_grad := (((2 * lamda) • Wm.transpose) * Wm) *ᵥ model
  fun j => data_misfit_grad j + regularisation_grad j

/-- `get_gradient(model, log_data, forward_operator, Wm, lamda)` of the
Gauss-Newton script. -/
def get_gradient {M N K : ℕ} (fop : ERTForwardOp M N) (log_data : Vec N)
    (Wm : Matrix (Fin K) (Fin M) ℚ) (lamda : ℚ) (model : Vec M) : Vec M :=
  let jr := get_jac_residual rexp rlog fop log_data model
  grad_combine jr.1 jr.2 Wm lamda model

/-- The pure combination step of `get_hessian`:
`jac.T @ jac + lamda * Wm.T @ Wm`. -/
def hess_combine {M N K : ℕ} (jac : Matrix (Fin N) (Fin M) ℚ)
    (Wm : Matrix (Fin K) (Fin M) ℚ) (lamda : ℚ) : Matrix (Fin M) (Fin M) ℚ :=
  jac.transpose * jac + (lamda • Wm.transpose) * Wm

/-- `get_hessian(model, log_data, forward_operator, Wm, lamda)` of the
Gauss-Newton script (`log_data` is accepted but unused by the source). -/
def get_hessian {M N K : ℕ} (fop : ERTForwardOp M N) (_log_data : Vec N)
    (Wm : Matrix (Fin K) (Fin M) ℚ) (lamda : ℚ) (model : Vec M) :
    Matrix (Fin M) (Fin M) ℚ :=
  hess_combine (get_jacobian rexp rlog fop model) Wm lamda

end ErtGaussNewton

namespace ErtScipyMinimize

/-! Functions of `pygimli_ert_scipy_minimize.py`.  Its `get_jac_residual`
is textually identical to the Gauss-Newton script's, so it is shared. -/

variable (rexp rlog : ℚ → ℚ)

/-- The pure combination step of `get_gradient` in the scipy-minimize script:
`- residual @ jac + lamda * Wm.T @ Wm @ model`. -/
def grad_combine {M N K : ℕ} (jac : Matrix (Fin N) (Fin M) ℚ) (residual : Vec N)
    (Wm : Matrix (Fin K) (Fin M) ℚ) (lamda : ℚ) (model : Vec M) : Vec M :=
  let data_misfit_grad := fun j => -((residual ᵥ* jac) j)
  let regularisation_grad := ((lamda • Wm.transpose) * Wm) *ᵥ model
  fun j => data_misfit_grad j + regularisation_grad j

/-- `get_gradient(model, log_data, forward_operator, Wm, lamda)` of the
scipy-minimize script. -/
def get_gradient {M N K : ℕ} (fop : ERTForwardOp M N) (log_data : Vec N)
    (Wm : Matrix (Fin K) (Fin M) ℚ) (lamda : ℚ) (model : Vec M) : Vec M :=
  let jr := ErtGaussNewton.get_jac_residual rexp rlog fop log_data model
  grad_combine jr.1 jr.2 Wm lamda model

end ErtScipyMinimize

namespace DcipLib

/-! Functions of `pygimli_dcip_lib.py`.  All functions there assume the
model in log space.  `pygimli.utils.squeezeComplex` is the identity on a
real-valued model vector (it only repacks complex arrays), so on the real
path modelled here `np.exp(squeezeComplex(model))` is the pointwise
exponential of the model. -/

variable (rexp rlog : ℚ → ℚ)

/-- `get_response(model, forward_operator)`:
`np.log(np.array(forward_operator.response(np.exp(squeezeComplex(model)))))`. -/
def get_response {M N : ℕ} (fop : ERTForwardOp M N) (model : Vec M) : Vec N :=
  fun i => rlog (fop.response (fun j => rexp (model j)) i)

/-- `get_jacobian(model, forward_operator)`: raw Jacobian taken at
`np.exp(model)`, then rescaled by
`J / np.exp(response[:, np.newaxis]) * np.exp(model)[np.newaxis, :]`. -/
def get_jacobian {M N : ℕ} (fop : ERTForwardOp M N) (model : Vec M) :
    Matrix (Fin N) (Fin M) ℚ :=
  let response := get_response rexp rlog fop model
  let J := fop.jacobianAt (fun j => rexp (model j))
  Matrix.of fun i j => J i j / rexp (response i) * rexp (model j)

/-- `get_hessian(model, log_data, forward_operator, Wm, lamda, data_cov_inv=None)`:
`data_cov_inv` defaults to `np.eye(log_data.shape[0])` when `None`, and the
result is `jac.T @ data_cov_inv @ jac + lamda * Wm.T @ Wm`. -/
def get_hessian {M N K : ℕ} (fop : ERTForwardOp M N) (_log_data : Vec N)
    (Wm : Matrix (Fin K) (Fin M) ℚ) (lamda : ℚ) (model : Vec M)
    (data_cov_inv : Option (Matrix (Fin N) (Fin N) ℚ)) :
    Matrix (Fin M) (Fin M) ℚ :=
  let jac := get_jacobian rexp rlog fop model
  let C := match data_cov_inv with
    | none => (1 : Matrix (Fin N) (Fin N) ℚ)
    | some C => C
  jac.transpose * C * jac + (lamda • Wm.transpose) * Wm

end DcipLib

/-! ## The GaussNewton solver of `pygimli_ert_gauss_newton.py`

`GaussNewton.__call__` loops `niter` times:
```
term1 = self._hessian(current_model)
term2 = - self._gradient(current_model)
model_update = np.linalg.solve(term1, term2)
current_model = np.array(current_model + model_update)
if self._verbose:
    print("-" * 80)
    print(f"Iteration i+1")
    if self._misfit: print(self._misfit(current_model))
    if self._reg: print(self._reg(current_model))
return dict(model=current_model, success=True)
```
The class also stores the problem's residual and jacobian callables, but
`__call__` never reads them, so they are not part of the model.  Printed
lines are returned as an explicit trace. -/

/-- The result dictionary `{"model": ..., "success": True}`. -/
structure GNResult (M : ℕ) where
  model : Vec M
  success : Bool

/-- One printed line of the verbose reporting block. -/
inductive TraceLine (M : ℕ) where
  | sep : TraceLine M
  | iterationHeader : ℕ → TraceLine M
  | misfitVal : ℚ → TraceLine M
  | regVal : ℚ → TraceLine M

/-- One update step of the loop body: evaluate the Hessian and gradient at
the current model, solve `H · delta = -g`, return `current_model + delta`;
`np.linalg.solve` raising propagates as an error. -/
def gnStep {M : ℕ} (hessian : Vec M → Matrix (Fin M) (Fin M) ℚ)
    (gradient : Vec M → Vec M) (m : Vec M) : Except String (Vec M) :=
  let term1 := hessian m
  let term2 := fun j => -(gradient m j)
  match npLinalgSolve term1 term2 with
  | .error e => .error e
  | .ok model_update => .ok (fun j => m j + model_update j)

/-- The lines printed by the verbose block at 0-based iteration `i`, after
the model has been updated to `m`. -/
def gnVerboseBlock {M : ℕ} (misfit reg : Option (Vec M → ℚ)) (verbose : Bool)
    (i : ℕ) (m : Vec M) : List (TraceLine M) :=
  if verbose then
    [TraceLine.sep, TraceLine.iterationHeader (i + 1)]
      ++ (match misfit with
          | some f => [TraceLine.misfitVal (f m)]
          | none => [])
      ++ (match reg with
          | some f => [TraceLine.regVal (f m)]
          | none => [])
  else []

/-- The loop of `GaussNewton.__call__`: `k` remaining iterations, `i` the
0-based index of the next iteration, returning the final model together with
the printed trace. -/
def gnLoopAux {M : ℕ} (hessian : Vec M → Matrix (Fin M) (Fin M) ℚ)
    (gradient : Vec M → Vec M) (misfit reg : Option (Vec M → ℚ))
    (verbose : Bool) : ℕ → ℕ → Vec M → Except String (Vec M × List (TraceLine M))
  | 0, _, m => .ok (m, [])
  | k + 1, i, m =>
    match gnStep hessian gradient m with
    | .error e => .error e
    | .ok m2 =>
      match gnLoopAux hessian gradient misfit reg verbose k (i + 1) m2 with
      | .error e => .error e
      | .ok (mf, tr) => .ok (mf, gnVerboseBlock misfit reg verbose i m2 ++ tr)

/-- The iteration of the loop body without the reporting: `k` iterations of
`gnStep` with error propagation. -/
def gnLoop {M : ℕ} (hessian : Vec M → Matrix (Fin M) (Fin M) ℚ)
    (gradient : Vec M → Vec M) : ℕ → Vec M → Except String (Vec M)
  | 0, m => .ok m
  | k + 1, m =>
    match gnStep hessian gradient m with
    | .error e => .error e
    | .ok m2 => gnLoop hessian gradient k m2

namespace GaussNewton

/-- `GaussNewton.__call__`: run the loop for `niter` iterations starting at
`np.array(model_0)` and return `{"model": current_model, "success": True}`
together with the printed trace. -/
def call {M : ℕ} (hessian : Vec M → Matrix (Fin M) (Fin M) ℚ)
    (gradient : Vec M → Vec M) (misfit reg : Option (Vec M → ℚ))
    (verbose : Bool) (niter : ℕ) (model_0 : Vec M) :
    Except String (GNResult M × List (TraceLine M)) :=
  (gnLoopAux hessian gradient misfit reg verbose niter 0 model_0).map
    (fun p => (⟨p.1, true⟩, p.2))

end GaussNewton

/-- The exact update vector `delta` solving `hessian m · delta = - gradient m`
at a model `m` where the Hessian is nonsingular (the value produced by
`np.linalg.solve` there). -/
def gnDelta {M : ℕ} (hessian : Vec M → Matrix (Fin M) (Fin M) ℚ)
    (gradient : Vec M → Vec M) (m : Vec M) : Vec M :=
  (hessian m).det⁻¹ • ((hessian m).adjugate *ᵥ fun j => -(gradient m j))

/-- The pure (error-free) update step `m + delta`. -/
def gnPureStep {M : ℕ} (hessian : Vec M → Matrix (Fin M) (Fin M) ℚ)
    (gradient : Vec M → Vec M) (m : Vec M) : Vec M :=
  fun j => m j + gnDelta hessian gradient m j

/-- `k`-fold pure iteration of the update step from the initial model. -/
def gnPure {M : ℕ} (hessian : Vec M → Matrix (Fin M) (Fin M) ℚ)
    (gradient : Vec M → Vec M) (k : ℕ) (m0 : Vec M) : Vec M :=
  (gnPureStep hessian gradient)^[k] m0

/-! ### Basic lemmas about the loop -/

theorem gnStep_ok {M : ℕ} (hessian : Vec M → Matrix (Fin M) (Fin M) ℚ)
    (gradient : Vec M → Vec M) (m : Vec M) (h : (hessian m).det ≠ 0) :
    gnStep hessian gradient m = .ok (gnPureStep hessian gradient m) := by
  have hs : npLinalgSolve (hessian m) (fun j => -(gradient m j))
      = .ok (gnDelta hessian gradient m) := by
    unfold npLinalgSolve gnDelta
    rw [if_neg h]
  show (match npLinalgSolve (hessian m) (fun j => -(gradient m j)) with
        | .error e => .error e
        | .ok model_update => .ok fun j => m j + model_update j)
      = Except.ok (gnPureStep hessian gradient m)
  rw [hs]
  rfl

theorem gnStep_error {M : ℕ} (hessian : Vec M → Matrix (Fin M) (Fin M) ℚ)
    (gradient : Vec M → Vec M) (m : Vec M) (h : (hessian m).det = 0) :
    gnStep hessian gradient m = .error "Singular matrix" := by
  have hs : npLinalgSolve (hessian m) (fun j => -(gradient m j))
      = .error "Singular matrix" := by
    unfold npLinalgSolve
    rw [if_pos h]
  show (match npLinalgSolve (hessian m) (fun j => -(gradient m j)) with
        | .error e => .error e
        | .ok model_update => .ok fun j => m j + model_update j)
      = Except.error "Singular matrix"
  rw [hs]

theorem gnLoop_succ {M : ℕ} (hessian : Vec M → Matrix (Fin M) (Fin M) ℚ)
    (gradient : Vec M → Vec M) (k : ℕ) (m : Vec M) :
    gnLoop hessian gradient (k + 1) m
      = Except.bind (gnLoop hessian gradient k m) (gnStep hessian gradient) := by
  induction k generalizing m with
  | zero =>
    show (match gnStep hessian gradient m with
          | .error e => .error e
          | .ok m2 => gnLoop hessian gradient 0 m2)
        = gnStep hessian gradient m
    cases gnStep hessian gradient m with
    | error e => rfl
    | ok m2 => rfl
  | succ k ih =>
    show (match gnStep hessian gradient m with
          | .error e => .error e
          | .ok m2 => gnLoop hessian gradient (k + 1) m2)
        = Except.bind
            (match gnStep hessian gradient m with
             | .error e => .error e
             | .ok m2 => gnLoop hessian gradient k m2)
            (gnStep hessian gradient)
    cases gnStep hessian gradient m with
    | error e => rfl
    | ok m2 => exact ih m2

theorem gnLoop_add {M : ℕ} (hessian : Vec M → Matrix (Fin M) (Fin M) ℚ)
    (gradient : Vec M → Vec M) (a b : ℕ) (m : Vec M) :
    gnLoop hessian gradient (a + b) m
      = Except.bind (gnLoop hessian gradient a m) (gnLoop hessian gradient b) := by
  induction a generalizing m with
  | zero => rw [Nat.zero_add]; rfl
  | succ a ih =>
    rw [show a + 1 + b = (a + b) + 1 from by omega]
    show (match gnStep hessian gradient m with
          | .error e => .error e
          | .ok m2 => gnLoop hessian gradient (a + b) m2)
        = Except.bind
            (match gnStep hessian gradient m with
             | .error e => .error e
             | .ok m2 => gnLoop hessian gradient a m2)
            (gnLoop hessian gradient b)
    cases gnStep hessian gradient m with
    | error e => rfl
    | ok m2 => exact ih m2

theorem gnLoopAux_fst {M : ℕ} (hessian : Vec M → Matrix (Fin M) (Fin M) ℚ)
    (gradient : Vec M → Vec M) (misfit reg : Option (Vec M → ℚ))
    (verbose : Bool) (k i : ℕ) (m : Vec M) :
    Except.map Prod.fst (gnLoopAux hessian gradient misfit reg verbose k i m)
      = gnLoop hessian gradient k m := by
  induction k generalizing i m with
  | zero => rfl
  | succ k ih =>
    show Except.map Prod.fst
        (match gnStep hessian gradient m with
         | .error e => .error e
         | .ok m2 =>
           match gnLoopAux hessian gradient misfit reg verbose k (i + 1) m2 with
           | .error e => .error e
           | .ok (mf, tr) =>
             .ok (mf, gnVerboseBlock misfit reg verbose i m2 ++ tr))
      = (match gnStep hessian gradient m with
         | .error e => .error e
         | .ok m2 => gnLoop hessian gradient k m2)
    cases gnStep hessian gradient m with
    | error e => rfl
    | ok m2 =>
      show Except.map Prod.fst
          (match gnLoopAux hessian gradient misfit reg verbose k (i + 1) m2 with
           | .error e => .error e
           | .ok (mf, tr) =>
             .ok (mf, gnVerboseBlock misfit reg verbose i m2 ++ tr))
        = gnLoop hessian gradient k m2
      have h2 := ih (i + 1) m2
      cases haux : gnLoopAux hessian gradient misfit reg verbose k (i + 1) m2 with
      | error e =>
        rw [haux] at h2
        exact h2
      | ok p =>
        obtain ⟨mf, tr⟩ := p
        rw [haux] at h2
        exact h2

theorem call_fst {M : ℕ} (hessian : Vec M → Matrix (Fin M) (Fin M) ℚ)
    (gradient : Vec M → Vec M) (misfit reg : Option (Vec M → ℚ))
    (verbose : Bool) (niter : ℕ) (m0 : Vec M) :
    Except.map Prod.fst
        (GaussNewton.call hessian gradient misfit reg verbose niter m0)
      = Except.map (fun m => GNResult.mk m true)
          (gnLoop hessian gradient niter m0) := by
  have h := gnLoopAux_fst hessian gradient misfit reg verbose niter 0 m0
  rw [← h]
  unfold GaussNewton.call
  cases gnLoopAux hessian gradient misfit reg verbose niter 0 m0 <;> rfl

theorem gnLoop_eq_pure {M : ℕ} (hessian : Vec M → Matrix (Fin M) (Fin M) ℚ)
    (gradient : Vec M → Vec M) (n : ℕ) (m0 : Vec M)
    (h : ∀ k, k < n → (hessian (gnPure hessian gradient k m0)).det ≠ 0) :
    gnLoop hessian gradient n m0 = .ok (gnPure hessian gradient n m0) := by
  induction n with
  | zero => rfl
  | succ n ih =>
    rw [gnLoop_succ, ih (fun k hk => h k (by omega))]
    show gnStep hessian gradient (gnPure hessian gradient n m0) = _
    rw [gnStep_ok hessian gradient _ (h n (by omega))]
    rw [show gnPure hessian gradient (n + 1) m0
          = gnPureStep hessian gradient (gnPure hessian gradient n m0) from
        Function.iterate_succ_apply' (gnPureStep hessian gradient) n m0]

theorem gnDelta_solves {M : ℕ} (hessian : Vec M → Matrix (Fin M) (Fin M) ℚ)
    (gradient : Vec M → Vec M) (m : Vec M) (h : (hessian m).det ≠ 0) :
    (hessian m) *ᵥ gnDelta hessian gradient m = fun j => -(gradient m j) := by
  unfold gnDelta
  rw [Matrix.mulVec_smul_assoc, Matrix.mulVec_mulVec, Matrix.mul_adjugate,
    Matrix.smul_mulVec_assoc, Matrix.one_mulVec, smul_smul,
    inv_mul_cancel₀ h, one_smul]

theorem call_model {M : ℕ} (hessian : Vec M → Matrix (Fin M) (Fin M) ℚ)
    (gradient : Vec M → Vec M) (misfit reg : Option (Vec M → ℚ))
    (verbose : Bool) (niter : ℕ) (m0 : Vec M) :
    Except.map (fun p => p.1.model)
        (GaussNewton.call hessian gradient misfit reg verbose niter m0)
      = gnLoop hessian gradient niter m0 := by
  have h1 := gnLoopAux_fst hessian gradient misfit reg verbose niter 0 m0
  rw [← h1]
  unfold GaussNewton.call
  cases gnLoopAux hessian gradient misfit reg verbose niter 0 m0 <;> rfl

theorem exceptMap_eq_error {α β : Type} (f : α → β) (x : Except String α)
    (e : String) (h : Except.map f x = Except.error e) : x = Except.error e := by
  cases x with
  | error q =>
    have hq : (Except.error q : Except String β) = Except.error e := h
    injection hq with hqe
    rw [hqe]
  | ok a =>
    have hq : (Except.ok (f a) : Except String β) = Except.error e := h
    exact Except.noConfusion hq

/-! ### Concrete evaluators used by the witnesses -/

/-- Constant identity Hessian on one variable. -/
def hessOne : Vec 1 → Matrix (Fin 1) (Fin 1) ℚ := fun _ => 1

/-- Constant singular (zero) Hessian on one variable. -/
def hessSing : Vec 1 → Matrix (Fin 1) (Fin 1) ℚ := fun _ => 0

/-- Constant zero gradient on one variable. -/
def gradZero : Vec 1 → Vec 1 := fun _ => 0

/-- The zero vector of length one. -/
def vecZero : Vec 1 := fun _ => 0

/-! ### Claims about the solver loop -/

/-- Claim C1: for every initial model, gradient and Hessian evaluators and
positive iteration count, the solver performs exactly `niter` update steps —
step `k` solves `hessian(m_k) · delta = -gradient(m_k)` and sets
`m_(k+1) = m_k + delta` — and returns the model after the `niter`-th step
with a success flag that is always `true` (stated under the hypothesis,
implicit in the claim's step description, that each step's linear system is
nonsingular, hence solvable; the singular case is claim C2). -/
theorem claim_C1 {M : ℕ} (hessian : Vec M → Matrix (Fin M) (Fin M) ℚ)
    (gradient : Vec M → Vec M) (misfit reg : Option (Vec M → ℚ))
    (verbose : Bool) (niter : ℕ) (m0 : Vec M) (_hpos : 0 < niter)
    (hreg : ∀ k, k < niter → (hessian (gnPure hessian gradient k m0)).det ≠ 0) :
    Except.map Prod.fst
        (GaussNewton.call hessian gradient misfit reg verbose niter m0)
      = .ok ⟨gnPure hessian gradient niter m0, true⟩
    ∧ (∀ k, k < niter →
        hessian (gnPure hessian gradient k m0) *ᵥ
            gnDelta hessian gradient (gnPure hessian gradient k m0)
          = fun j => -(gradient (gnPure hessian gradient k m0) j))
    ∧ (∀ k, k < niter →
        gnPure hessian gradient (k + 1) m0
          = fun j => gnPure hessian gradient k m0 j
              + gnDelta hessian gradient (gnPure hessian gradient k m0) j) := by
  refine ⟨?_, ?_, ?_⟩
  · rw [call_fst, gnLoop_eq_pure hessian gradient niter m0 hreg]
    rfl
  · intro k hk
    exact gnDelta_solves hessian gradient _ (hreg k hk)
  · intro k hk
    rw [show gnPure hessian gradient (k + 1) m0
          = gnPureStep hessian gradient (gnPure hessian gradient k m0) from
        Function.iterate_succ_apply' (gnPureStep hessian gradient) k m0]
    rfl

/-- Witness for C1 at a concrete instance: one variable, identity Hessian,
zero gradient, one iteration. -/
theorem claim_C1_witness :
    (0 < 1)
    ∧ (∀ k, k < 1 → (hessOne (gnPure hessOne gradZero k vecZero)).det ≠ 0)
    ∧ (Except.map Prod.fst
          (GaussNewton.call hessOne gradZero none none false 1 vecZero)
        = .ok ⟨gnPure hessOne gradZero 1 vecZero, true⟩
      ∧ (∀ k, k < 1 →
          hessOne (gnPure hessOne gradZero k vecZero) *ᵥ
              gnDelta hessOne gradZero (gnPure hessOne gradZero k vecZero)
            = fun j => -(gradZero (gnPure hessOne gradZero k vecZero) j))
      ∧ (∀ k, k < 1 →
          gnPure hessOne gradZero (k + 1) vecZero
            = fun j => gnPure hessOne gradZero k vecZero j
                + gnDelta hessOne gradZero (gnPure hessOne gradZero k vecZero) j)) := by
  have hreg : ∀ k, k < 1 → (hessOne (gnPure hessOne gradZero k vecZero)).det ≠ 0 := by
    intro k _
    show (1 : Matrix (Fin 1) (Fin 1) ℚ).det ≠ 0
    rw [Matrix.det_one]
    norm_num
  exact ⟨Nat.one_pos, hreg,
    claim_C1 hessOne gradZero none none false 1 vecZero Nat.one_pos hreg⟩

/-- Claim C2: if the Hessian is singular (not invertible) at the first such
iteration `i < niter`, the solver invocation fails there with the
descriptive `"Singular matrix"` error raised by `np.linalg.solve`, aborting
the remaining iterations instead of returning a result dictionary. -/
theorem claim_C2 {M : ℕ} (hessian : Vec M → Matrix (Fin M) (Fin M) ℚ)
    (gradient : Vec M → Vec M) (misfit reg : Option (Vec M → ℚ))
    (verbose : Bool) (niter : ℕ) (m0 : Vec M) (i : ℕ) (hi : i < niter)
    (hok : ∀ k, k < i → (hessian (gnPure hessian gradient k m0)).det ≠ 0)
    (hsing : (hessian (gnPure hessian gradient i m0)).det = 0) :
    GaussNewton.call hessian gradient misfit reg verbose niter m0
      = .error "Singular matrix" := by
  have hloop : gnLoop hessian gradient niter m0 = .error "Singular matrix" := by
    obtain ⟨r, hr⟩ : ∃ r, niter = i + (r + 1) := ⟨niter - i - 1, by omega⟩
    rw [hr, gnLoop_add, gnLoop_eq_pure hessian gradient i m0 hok]
    show gnLoop hessian gradient (r + 1) (gnPure hessian gradient i m0)
        = Except.error "Singular matrix"
    show (match gnStep hessian gradient (gnPure hessian gradient i m0) with
          | .error e => .error e
          | .ok m2 => gnLoop hessian gradient r m2)
        = Except.error "Singular matrix"
    rw [gnStep_error hessian gradient _ hsing]
  have hm := call_model hessian gradient misfit reg verbose niter m0
  rw [hloop] at hm
  exact exceptMap_eq_error (fun p => p.1.model)
    (GaussNewton.call hessian gradient misfit reg verbose niter m0)
    "Singular matrix" hm

/-- Witness for C2 at a concrete instance: one variable, zero Hessian at the
initial model, one iteration. -/
theorem claim_C2_witness :
    (0 < 1)
    ∧ ((hessSing (gnPure hessSing gradZero 0 vecZero)).det = 0)
    ∧ GaussNewton.call hessSing gradZero none none false 1 vecZero
        = .error "Singular matrix" := by
  have hsing : (hessSing (gnPure hessSing gradZero 0 vecZero)).det = 0 := by
    show (0 : Matrix (Fin 1) (Fin 1) ℚ).det = 0
    rw [Matrix.det_fin_one]
    rfl
  exact ⟨Nat.one_pos, hsing,
    claim_C2 hessSing gradZero none none false 1 vecZero 0 Nat.one_pos
      (fun k hk => absurd hk (Nat.not_lt_zero k)) hsing⟩

/-- Claim C8: the iteration is stateless and composable — running the solver
for `k+1` iterations yields the same model as running it for `k` iterations
and then applying one additional update step to that result (failures
propagate identically on both sides). -/
theorem claim_C8 {M : ℕ} (hessian : Vec M → Matrix (Fin M) (Fin M) ℚ)
    (gradient : Vec M → Vec M) (misfit reg : Option (Vec M → ℚ))
    (verbose : Bool) (k : ℕ) (m0 : Vec M) :
    Except.map (fun p => p.1.model)
        (GaussNewton.call hessian gradient misfit reg verbose (k + 1) m0)
      = Except.bind
          (Except.map (fun p => p.1.model)
            (GaussNewton.call hessian gradient misfit reg verbose k m0))
          (gnStep hessian gradient) := by
  rw [call_model, call_model, gnLoop_succ]

/-- Claim C9: with an iteration count of 0 the solver returns the initial
model unchanged, with success flag `true` and no printed output, for every
choice of gradient and Hessian evaluators. -/
theorem claim_C9 {M : ℕ} (hessian : Vec M → Matrix (Fin M) (Fin M) ℚ)
    (gradient : Vec M → Vec M) (misfit reg : Option (Vec M → ℚ))
    (verbose : Bool) (m0 : Vec M) :
    GaussNewton.call hessian gradient misfit reg verbose 0 m0
      = .ok (⟨m0, true⟩, ([] : List (TraceLine M))) := rfl

/-- Claim C10: the returned model and success flag are identical whatever
the verbose flag and whether or not the optional misfit and regularisation
reporting functions are supplied; the verbose branch only contributes
printed output. -/
theorem claim_C10 {M : ℕ} (hessian : Vec M → Matrix (Fin M) (Fin M) ℚ)
    (gradient : Vec M → Vec M) (misfit reg misfit2 reg2 : Option (Vec M → ℚ))
    (verbose verbose2 : Bool) (niter : ℕ) (m0 : Vec M) :
    Except.map Prod.fst
        (GaussNewton.call hessian gradient misfit reg verbose niter m0)
      = Except.map Prod.fst
          (GaussNewton.call hessian gradient misfit2 reg2 verbose2 niter m0) := by
  rw [call_fst, call_fst]

/-! ### Claims about the gradient / Hessian / Jacobian helper functions -/

/-- Claim C4: given the same Jacobian and residual values from the shared
`get_jac_residual` computation, the gradient of the Gauss-Newton script
(doubled convention) is exactly 2 times the gradient of the scipy-minimize
script (undoubled convention), for every model, log-data vector,
regularisation matrix and weight. -/
theorem claim_C4 {M N K : ℕ} (rexp rlog : ℚ → ℚ) (fop : ERTForwardOp M N)
    (log_data : Vec N) (Wm : Matrix (Fin K) (Fin M) ℚ) (lamda : ℚ)
    (model : Vec M) :
    ErtGaussNewton.get_gradient rexp rlog fop log_data Wm lamda model
      = fun j =>
        2 * ErtScipyMinimize.get_gradient rexp rlog fop log_data Wm lamda model j := by
  funext j
  unfold ErtGaussNewton.get_gradient ErtScipyMinimize.get_gradient
    ErtGaussNewton.grad_combine ErtScipyMinimize.grad_combine
  simp only [Matrix.smul_mul, Matrix.smul_mulVec_assoc, Pi.smul_apply,
    smul_eq_mul]
  ring

/-- Claim C5: `get_hessian` returns `Jᵀ · C⁻¹ · J + lamda · Wmᵀ · Wm` where
`J` is the rescaled Jacobian at the model, with the data covariance
weighting defaulting to the identity when no covariance argument is
supplied (DCIP library version with explicit optional `data_cov_inv`, and
the ERT Gauss-Newton version which has no covariance argument at all). -/
theorem claim_C5 {M N K : ℕ} (rexp rlog : ℚ → ℚ) (fop : ERTForwardOp M N)
    (log_data : Vec N) (Wm : Matrix (Fin K) (Fin M) ℚ) (lamda : ℚ)
    (model : Vec M) :
    (∀ C : Matrix (Fin N) (Fin N) ℚ,
      DcipLib.get_hessian rexp rlog fop log_data Wm lamda model (some C)
        = (DcipLib.get_jacobian rexp rlog fop model).transpose * C *
            DcipLib.get_jacobian rexp rlog fop model
          + lamda • (Wm.transpose * Wm))
    ∧ DcipLib.get_hessian rexp rlog fop log_data Wm lamda model none
        = (DcipLib.get_jacobian rexp rlog fop model).transpose
              * (1 : Matrix (Fin N) (Fin N) ℚ)
              * DcipLib.get_jacobian rexp rlog fop model
          + lamda • (Wm.transpose * Wm)
    ∧ ErtGaussNewton.get_hessian rexp rlog fop log_data Wm lamda model
        = (ErtGaussNewton.get_jacobian rexp rlog fop model).transpose
              * (1 : Matrix (Fin N) (Fin N) ℚ)
              * ErtGaussNewton.get_jacobian rexp rlog fop model
          + lamda • (Wm.transpose * Wm) := by
  refine ⟨fun C => ?_, ?_, ?_⟩
  · unfold DcipLib.get_hessian
    rw [Matrix.smul_mul]
  · unfold DcipLib.get_hessian
    rw [Matrix.smul_mul]
  · unfold ErtGaussNewton.get_hessian ErtGaussNewton.hess_combine
    rw [Matrix.smul_mul]
    rw [Matrix.mul_one]

/-- Claim C6: with the model parameterised in log space, `get_jacobian`
returns the raw Jacobian supplied by the forward operator (evaluated at the
exponentiated model) rescaled elementwise, entry `(i, j)` being
`J[i][j] * exp(model[j]) / exp(response[i])` with `response` the log-domain
forward response at that model. -/
theorem claim_C6 {M N : ℕ} (rexp rlog : ℚ → ℚ) (fop : ERTForwardOp M N)
    (model : Vec M) (i : Fin N) (j : Fin M) :
    DcipLib.get_jacobian rexp rlog fop model i j
      = fop.jacobianAt (fun j2 => rexp (model j2)) i j * rexp (model j)
          / rexp (DcipLib.get_response rexp rlog fop model i) := by
  unfold DcipLib.get_jacobian
  rw [Matrix.of_apply, div_mul_eq_mul_div]

/-- Claim C3: with `lambda = 0` and an exactly-linear forward model
`response(m) = G·m` with invertible `GᵀG`, a model `m` is a fixed point of
the Gauss-Newton update step — the computed `delta` solving
`H · delta = -g` with the repository's gradient and Hessian combination
rules specialised to `jac = G`, `residual = d - G·m`, `lamda = 0` is the
zero vector — if and only if `m` is the ordinary least-squares solution
`(GᵀG)⁻¹ Gᵀ d`. -/
theorem claim_C3 {M N K : ℕ} (G : Matrix (Fin N) (Fin M) ℚ) (d : Vec N)
    (Wm : Matrix (Fin K) (Fin M) ℚ) (m : Vec M)
    (h : (G.transpose * G).det ≠ 0) :
    npLinalgSolve (ErtGaussNewton.hess_combine G Wm 0)
        (fun j => -(ErtGaussNewton.grad_combine G
          (fun i => d i - (G *ᵥ m) i) Wm 0 m j))
      = .ok 0
    ↔ m = ((G.transpose * G)⁻¹ * G.transpose) *ᵥ d := by
  have hH : ErtGaussNewton.hess_combine G Wm 0 = G.transpose * G := by
    unfold ErtGaussNewton.hess_combine
    rw [zero_smul, Matrix.zero_mul, add_zero]
  have hb : (fun j => -(ErtGaussNewton.grad_combine G
        (fun i => d i - (G *ᵥ m) i) Wm 0 m j))
      = (2 : ℚ) • ((fun i => d i - (G *ᵥ m) i) ᵥ* G) := by
    funext j
    unfold ErtGaussNewton.grad_combine
    rw [mul_zero, zero_smul, Matrix.zero_mul]
    simp only [Matrix.zero_mulVec, Pi.zero_apply, add_zero, Pi.smul_apply,
      smul_eq_mul]
    ring
  rw [hH, hb]
  unfold npLinalgSolve
  rw [if_neg h]
  rw [Except.ok.injEq]
  set A := G.transpose * G with hA
  set r : Vec N := fun i => d i - (G *ᵥ m) i with hr
  have hu : IsUnit A.det := isUnit_iff_ne_zero.mpr h
  have step1 : A.det⁻¹ • (A.adjugate *ᵥ ((2 : ℚ) • (r ᵥ* G))) = 0
      ↔ A.adjugate *ᵥ ((2 : ℚ) • (r ᵥ* G)) = 0 := by
    rw [smul_eq_zero]
    constructor
    · rintro (h1 | h1)
      · exact absurd (inv_eq_zero.mp h1) h
      · exact h1
    · intro h1
      exact Or.inr h1
  have step2 : A.adjugate *ᵥ ((2 : ℚ) • (r ᵥ* G)) = 0
      ↔ (2 : ℚ) • (r ᵥ* G) = 0 := by
    constructor
    · intro h1
      have h2 : A *ᵥ (A.adjugate *ᵥ ((2 : ℚ) • (r ᵥ* G))) = 0 := by
        rw [h1, Matrix.mulVec_zero]
      rw [Matrix.mulVec_mulVec, Matrix.mul_adjugate, Matrix.smul_mulVec_assoc,
        Matrix.one_mulVec, smul_eq_zero] at h2
      exact h2.resolve_left h
    · intro h1
      rw [h1, Matrix.mulVec_zero]
  have step3 : (2 : ℚ) • (r ᵥ* G) = 0 ↔ r ᵥ* G = 0 := by
    rw [smul_eq_zero]
    constructor
    · rintro (h1 | h1)
      · exact absurd h1 two_ne_zero
      · exact h1
    · intro h1
      exact Or.inr h1
  have step4 : r ᵥ* G = 0 ↔ A *ᵥ m = G.transpose *ᵥ d := by
    have hrw : r ᵥ* G = G.transpose *ᵥ d - A *ᵥ m := by
      rw [← Matrix.mulVec_transpose]
      show G.transpose *ᵥ (d - G *ᵥ m) = G.transpose *ᵥ d - A *ᵥ m
      rw [Matrix.mulVec_sub, Matrix.mulVec_mulVec]
    rw [hrw, sub_eq_zero, eq_comm]
  have step5 : A *ᵥ m = G.transpose *ᵥ d ↔ m = (A⁻¹ * G.transpose) *ᵥ d := by
    constructor
    · intro h1
      rw [← Matrix.mulVec_mulVec, ← h1, Matrix.mulVec_mulVec,
        Matrix.nonsing_inv_mul A hu, Matrix.one_mulVec]
    · intro h1
      rw [h1, Matrix.mulVec_mulVec, ← Matrix.mul_assoc,
        Matrix.mul_nonsing_inv A hu, Matrix.one_mul]
  exact ((step1.trans step2).trans step3).trans (step4.trans step5)

/-! ### Shape-level model of the solver loop

To state the dimension invariant of claim C7 the loop is also modelled on
raw lists, where lengths are data rather than types.  `np.linalg.solve`
requires a square coefficient matrix and a conformant right-hand side and
returns a solution of the same length; numpy's `+` on 1-d arrays requires
equal lengths up to broadcasting of a length-one operand. -/

/-- `np.linalg.solve` on list-encoded data: checks that `H` is square and
`b` conformant, then solves via the `Fin`-indexed model. -/
def npSolveList (H : List (List ℚ)) (b : List ℚ) : Except String (List ℚ) :=
  if (∀ row ∈ H, row.length = H.length) ∧ b.length = H.length then
    match npLinalgSolve
        (Matrix.of fun i j : Fin H.length => (H.get i).getD j.val 0)
        (fun i : Fin H.length => b.getD i.val 0) with
    | .error e => .error e
    | .ok x => .ok (List.ofFn x)
  else .error "Incompatible dimensions"

/-- numpy `+` on 1-d arrays: elementwise on equal lengths, broadcasting a
length-one operand, otherwise an error. -/
def npAdd (a b : List ℚ) : Except String (List ℚ) :=
  if a.length = b.length then .ok (List.zipWith (fun x y => x + y) a b)
  else if a.length = 1 then .ok (b.map fun y => a.headD 0 + y)
  else if b.length = 1 then .ok (a.map fun x => x + b.headD 0)
  else .error "operands could not be broadcast together"

/-- One update step of the loop body on list-encoded data. -/
def gnStepList (hessian : List ℚ → List (List ℚ)) (gradient : List ℚ → List ℚ)
    (m : List ℚ) : Except String (List ℚ) :=
  match npSolveList (hessian m) ((gradient m).map fun x => -x) with
  | .error e => .error e
  | .ok model_update => npAdd m model_update

/-- The solver loop on list-encoded data. -/
def gnLoopList (hessian : List ℚ → List (List ℚ)) (gradient : List ℚ → List ℚ) :
    ℕ → List ℚ → Except String (List ℚ)
  | 0, m => .ok m
  | k + 1, m =>
    match gnStepList hessian gradient m with
    | .error e => .error e
    | .ok m2 => gnLoopList hessian gradient k m2

theorem gnLoopList_succ (hessian : List ℚ → List (List ℚ))
    (gradient : List ℚ → List ℚ) (k : ℕ) (m : List ℚ) :
    gnLoopList hessian gradient (k + 1) m
      = Except.bind (gnLoopList hessian gradient k m)
          (gnStepList hessian gradient) := by
  induction k generalizing m with
  | zero =>
    show (match gnStepList hessian gradient m with
          | .error e => .error e
          | .ok m2 => gnLoopList hessian gradient 0 m2)
        = gnStepList hessian gradient m
    cases gnStepList hessian gradient m with
    | error e => rfl
    | ok m2 => rfl
  | succ k ih =>
    show (match gnStepList hessian gradient m with
          | .error e => .error e
          | .ok m2 => gnLoopList hessian gradient (k + 1) m2)
        = Except.bind
            (match gnStepList hessian gradient m with
             | .error e => .error e
             | .ok m2 => gnLoopList hessian gradient k m2)
            (gnStepList hessian gradient)
    cases gnStepList hessian gradient m with
    | error e => rfl
    | ok m2 => exact ih m2

theorem npSolveList_length (H : List (List ℚ)) (b : List ℚ) (u : List ℚ)
    (h : npSolveList H b = .ok u) : u.length = H.length := by
  unfold npSolveList at h
  split at h
  · cases hnp : npLinalgSolve
        (Matrix.of fun i j : Fin H.length => (H.get i).getD j.val 0)
        (fun i : Fin H.length => b.getD i.val 0) with
    | error e => rw [hnp] at h; exact Except.noConfusion h
    | ok x =>
      rw [hnp] at h
      injection h with hu
      rw [← hu]
      exact List.length_ofFn x
  · exact Except.noConfusion h

/-- Claim C7: if at every model visited before the end of the run the
gradient evaluator returns a vector of the initial model's length `M` and
the Hessian evaluator returns an `M×M` matrix, then the current model has
length `M` after every iteration — the model vector's length never changes
across iterations. -/
theorem claim_C7 (hessian : List ℚ → List (List ℚ)) (gradient : List ℚ → List ℚ)
    (m0 : List ℚ) (niter : ℕ)
    (hshape : ∀ k, k < niter → ∀ m, gnLoopList hessian gradient k m0 = .ok m →
      (gradient m).length = m0.length ∧ (hessian m).length = m0.length
        ∧ ∀ row ∈ hessian m, row.length = m0.length) :
    ∀ k, k ≤ niter → ∀ m, gnLoopList hessian gradient k m0 = .ok m →
      m.length = m0.length := by
  intro k
  induction k with
  | zero =>
    intro _ m hm
    injection hm with h2
    rw [← h2]
  | succ k ih =>
    intro hk m hm
    rw [gnLoopList_succ] at hm
    cases hprev : gnLoopList hessian gradient k m0 with
    | error e => rw [hprev] at hm; exact Except.noConfusion hm
    | ok m1 =>
      rw [hprev] at hm
      have hstep : gnStepList hessian gradient m1 = .ok m := hm
      have hm1 : m1.length = m0.length := ih (by omega) m1 hprev
      obtain ⟨hg, hh, _⟩ := hshape k (by omega) m1 hprev
      unfold gnStepList at hstep
      cases hsol : npSolveList (hessian m1) ((gradient m1).map fun x => -x) with
      | error e => rw [hsol] at hstep; exact Except.noConfusion hstep
      | ok model_update =>
        rw [hsol] at hstep
        have hlen : model_update.length = m0.length :=
          (npSolveList_length (hessian m1) ((gradient m1).map fun x => -x)
            model_update hsol).trans hh
        have hstep2 : npAdd m1 model_update = .ok m := hstep
        unfold npAdd at hstep2
        rw [if_pos (hm1.trans hlen.symm)] at hstep2
        injection hstep2 with h2
        rw [← h2, List.length_zipWith, hm1, hlen, min_self]

/-- Concrete constant 1×1 list Hessian for the C7 witness. -/
def hessListOne : List ℚ → List (List ℚ) := fun _ => [[1]]

/-- Concrete constant length-1 zero list gradient for the C7 witness. -/
def gradListZero : List ℚ → List ℚ := fun _ => [0]

/-- Witness for C7 at a concrete instance: one variable, one iteration. -/
theorem claim_C7_witness :
    (∀ k, k < 1 → ∀ m, gnLoopList hessListOne gradListZero k [(5 : ℚ)] = .ok m →
      (gradListZero m).length = [(5 : ℚ)].length
        ∧ (hessListOne m).length = [(5 : ℚ)].length
        ∧ ∀ row ∈ hessListOne m, row.length = [(5 : ℚ)].length)
    ∧ (∀ k, k ≤ 1 → ∀ m, gnLoopList hessListOne gradListZero k [(5 : ℚ)] = .ok m →
        m.length = [(5 : ℚ)].length) := by
  have hshape : ∀ k, k < 1 → ∀ m,
      gnLoopList hessListOne gradListZero k [(5 : ℚ)] = .ok m →
      (gradListZero m).length = [(5 : ℚ)].length
        ∧ (hessListOne m).length = [(5 : ℚ)].length
        ∧ ∀ row ∈ hessListOne m, row.length = [(5 : ℚ)].length := by
    intro k hk m hm
    have hk0 : k = 0 := by omega
    subst hk0
    refine ⟨rfl, rfl, ?_⟩
    intro row hrow
    rw [List.mem_singleton.mp hrow]
    rfl
  exact ⟨hshape, claim_C7 hessListOne gradListZero [(5 : ℚ)] 1 hshape⟩

/-- Concrete 1×1 basis matrix for the C3 witness. -/
def gMat : Matrix (Fin 1) (Fin 1) ℚ := 1

/-- Concrete data vector for the C3 witness. -/
def dVec : Vec 1 := fun _ => 3

/-- Concrete model vector for the C3 witness. -/
def mVec : Vec 1 := fun _ => 3

/-- Witness for C3 at a concrete instance. -/
theorem claim_C3_witness :
    ((gMat.transpose * gMat).det ≠ 0)
    ∧ (npLinalgSolve (ErtGaussNewton.hess_combine gMat (0 : Matrix (Fin 1) (Fin 1) ℚ) 0)
          (fun j => -(ErtGaussNewton.grad_combine gMat
            (fun i => dVec i - (gMat *ᵥ mVec) i) (0 : Matrix (Fin 1) (Fin 1) ℚ) 0 mVec j))
        = .ok 0
      ↔ mVec = ((gMat.transpose * gMat)⁻¹ * gMat.transpose) *ᵥ dVec) := by
  have hdet : (gMat.transpose * gMat).det ≠ 0 := by
    unfold gMat
    rw [Matrix.transpose_one, Matrix.one_mul, Matrix.det_one]
    norm_num
  exact ⟨hdet, claim_C3 gMat dVec 0 mVec hdet⟩
